/-
Verification of the Peircean abduction orchestrator core
(models.py / agent.py / mcp server input validation) against its
natural-language specification.

Shallow embedding conventions:
  * Python `float` values are modelled as `ℚ` (the code only ever adds and
    multiplies score/weight values, so exact rational arithmetic mirrors the
    arithmetic structure of the code).
  * Python `str` is modelled as `String` where only equality/lookup is used,
    and as `List Char` where the code manipulates text character by character
    (the oracle-response parser).
  * Python `dict[str, float]` arguments are modelled as association lists with
    first-match lookup (`dict` keys are unique, so first-match = the match);
    `dict.get(k, d)` becomes `(List.lookup k w).getD d`, and Python dict
    truthiness (`weights or default_weights`) becomes an `isEmpty` test.
  * Fallible Python operations (attribute errors, type errors, pydantic
    validation) are modelled with `Except`.
  * An oracle delegation (`self._call_llm(prompt)`) is abstracted to the text
    it returns (or the exception it raises); the prompt string itself never
    influences the control flow verified here.
-/
import Mathlib

/-! ## Model layer: `HypothesisScores.composite` (core/models.py, lines 117-154) -/

/-- Embeds `HypothesisScores` (core/models.py): seven score dimensions, each a
float in `[0,1]` with default `0.5`. -/
structure HypothesisScores where
  explanatory_scope : ℚ := 0.5
  explanatory_power : ℚ := 0.5
  parsimony : ℚ := 0.5
  testability : ℚ := 0.5
  consilience : ℚ := 0.5
  analogy : ℚ := 0.5
  fertility : ℚ := 0.5
  deriving Repr, DecidableEq

/-- The pydantic bound `Field(ge=0.0, le=1.0)` on each dimension. -/
def HypothesisScores.InBounds (s : HypothesisScores) : Prop :=
  0 ≤ s.explanatory_scope ∧ s.explanatory_scope ≤ 1 ∧
  0 ≤ s.explanatory_power ∧ s.explanatory_power ≤ 1 ∧
  0 ≤ s.parsimony ∧ s.parsimony ≤ 1 ∧
  0 ≤ s.testability ∧ s.testability ≤ 1 ∧
  0 ≤ s.consilience ∧ s.consilience ≤ 1 ∧
  0 ≤ s.analogy ∧ s.analogy ≤ 1 ∧
  0 ≤ s.fertility ∧ s.fertility ≤ 1

instance (s : HypothesisScores) : Decidable s.InBounds := by
  unfold HypothesisScores.InBounds; infer_instance

/-- A weight mapping `dict[str, float]` as an association list. -/
abbrev Weights := List (String × ℚ)

/-- Python `w.get(key, 0)` on a dict modelled as an association list. -/
def wget (w : Weights) (k : String) : ℚ := (List.lookup k w).getD 0

/-- `default_weights` from `HypothesisScores.composite` (core/models.py). -/
def default_weights : Weights :=
  [("explanatory_scope", 0.15), ("explanatory_power", 0.25), ("parsimony", 0.20),
   ("testability", 0.15), ("consilience", 0.10), ("analogy", 0.05), ("fertility", 0.10)]

/-- Embeds `HypothesisScores.composite(weights)` (core/models.py):
`w = weights or default_weights` (Python truthiness: `None` and the empty dict
both select the defaults), then the raw weighted sum of the seven dimensions
with `w.get(dim, 0)` as the coefficient. -/
def HypothesisScores.composite (s : HypothesisScores) (weights : Option Weights := none) : ℚ :=
  let w := match weights with
    | none => default_weights
    | some ws => if ws.isEmpty then default_weights else ws
  wget w "explanatory_scope" * s.explanatory_scope +
  wget w "explanatory_power" * s.explanatory_power +
  wget w "parsimony" * s.parsimony +
  wget w "testability" * s.testability +
  wget w "consilience" * s.consilience +
  wget w "analogy" * s.analogy +
  wget w "fertility" * s.fertility

/-- All seven dimensions scored `1.0`. -/
def scoresAllOne : HypothesisScores :=
  { explanatory_scope := 1, explanatory_power := 1, parsimony := 1, testability := 1,
    consilience := 1, analogy := 1, fertility := 1 }

/-! ## Text model: Python string primitives used by `AbductionAgent._parse_json`
(core/agent.py, lines 531-550). Oracle text is modelled as `List Char`. -/

/-- The whitespace characters trimmed by Python `str.strip()` (ASCII range;
the code never feeds non-ASCII whitespace through `.strip()`). -/
def pyIsSpace (c : Char) : Bool :=
  c = ' ' || c = '\t' || c = '\n' || c = '\r' || c = '\x0b' || c = '\x0c'

/-- Python `text.lstrip()`. -/
def lstrip (cs : List Char) : List Char := cs.dropWhile pyIsSpace

/-- Python `text.rstrip()`. -/
def rstrip (cs : List Char) : List Char := (cs.reverse.dropWhile pyIsSpace).reverse

/-- Python `text.strip()` (both ends trimmed). -/
def pyStrip (cs : List Char) : List Char := lstrip (rstrip cs)

/-- The markdown fence `` ``` `` as a character list. -/
def fence : List Char := ['`', '`', '`']

/-- Python `text.startswith("```")`. -/
def startsFence : List Char → Bool
  | c1 :: c2 :: c3 :: _ => c1 = '`' && c2 = '`' && c3 = '`'
  | _ => false

/-- Models `text.find("\n")` followed by the slice `text[first_newline + 1:]`:
the tail after the first newline, or `none` when `find` returns `-1`. -/
def afterFirstNl : List Char → Option (List Char)
  | [] => none
  | c :: rest => if c = '\n' then some rest else afterFirstNl rest

/-- The fence-line removal step of `_parse_json`: drop everything up to and
including the first newline; leave the text unchanged if it has no newline. -/
def dropFenceLine (cs : List Char) : List Char := (afterFirstNl cs).getD cs

/-- Models `if text.endswith("```"): text = text[:-3]` as one step. -/
def stripClosingFence (cs : List Char) : List Char :=
  match cs.reverse with
  | c1 :: c2 :: c3 :: rest =>
    if c1 = '`' ∧ c2 = '`' ∧ c3 = '`' then rest.reverse else cs
  | _ => cs

/-- The text handed to `json.loads` by `_parse_json`: strip, then (only when
the text begins with a fence) drop the fence line, drop a trailing closing
fence, and strip again. -/
def parse_json_text (response : List Char) : List Char :=
  let text := pyStrip response
  if startsFence text then pyStrip (stripClosingFence (dropFenceLine text)) else text

/-! ## JSON values and a strict decoder modelling Python `json.loads`
(the `NaN`/`Infinity` float literals Python additionally accepts lie outside
the rational number model and outside every input considered here). -/

/-- A decoded JSON value (`float` modelled as `ℚ`). -/
inductive Json where
  | null : Json
  | bool (b : Bool) : Json
  | num (q : ℚ) : Json
  | str (s : String) : Json
  | arr (xs : List Json) : Json
  | obj (kvs : List (String × Json)) : Json
  deriving Repr

/-- JSON structural whitespace (RFC 8259, as accepted by `json.loads`). -/
def jsonWs (c : Char) : Bool := c = ' ' || c = '\t' || c = '\n' || c = '\r'

def skipWs (cs : List Char) : List Char := cs.dropWhile jsonWs

/-- Dict insertion with Python semantics: a duplicate key keeps its original
position and takes the later value. -/
def objInsert (kvs : List (String × Json)) (k : String) (v : Json) :
    List (String × Json) :=
  match kvs with
  | [] => [(k, v)]
  | (k0, v0) :: rest =>
    if k0 = k then (k0, v) :: rest else (k0, v0) :: objInsert rest k v

/-- Digit run → value. -/
def digitsToNat (ds : List Char) : ℕ :=
  ds.foldl (fun n c => 10 * n + (c.toNat - 48)) 0

/-- Strict JSON number syntax (`-? (0|[1-9][0-9]*) (\.[0-9]+)? ([eE][+-]?[0-9]+)?`),
as matched by the `json` module's number pattern; the value is assembled as an
exact rational `sign * digits * 10 ^ (exponent - fraction-length)`. -/
def parseNumber (cs : List Char) : Option (ℚ × List Char) :=
  let (neg, cs) := match cs with
    | '-' :: rest => (true, rest)
    | _ => (false, cs)
  let intDigits := cs.takeWhile Char.isDigit
  let cs1 := cs.dropWhile Char.isDigit
  let intOk : Bool := match intDigits with
    | [] => false
    | ['0'] => true
    | '0' :: _ => false
    | _ => true
  if intOk then
    let (fracDigits, cs2) := match cs1 with
      | '.' :: rest =>
        (rest.takeWhile Char.isDigit, rest.dropWhile Char.isDigit)
      | _ => ([], cs1)
    let fracBad : Bool := match cs1 with
      | '.' :: rest => (rest.takeWhile Char.isDigit).isEmpty
      | _ => false
    let (expOk, expNeg, expDigits, cs3) := match cs2 with
      | 'e' :: '+' :: rest => (true, false, rest.takeWhile Char.isDigit, rest.dropWhile Char.isDigit)
      | 'e' :: '-' :: rest => (true, true, rest.takeWhile Char.isDigit, rest.dropWhile Char.isDigit)
      | 'e' :: rest => (true, false, rest.takeWhile Char.isDigit, rest.dropWhile Char.isDigit)
      | 'E' :: '+' :: rest => (true, false, rest.takeWhile Char.isDigit, rest.dropWhile Char.isDigit)
      | 'E' :: '-' :: rest => (true, true, rest.takeWhile Char.isDigit, rest.dropWhile Char.isDigit)
      | 'E' :: rest => (true, false, rest.takeWhile Char.isDigit, rest.dropWhile Char.isDigit)
      | _ => (false, false, [], cs2)
    let expBad : Bool := expOk && expDigits.isEmpty
    if fracBad || expBad then none
    else
      let scale := fracDigits.length
      let mantissa : ℤ := (digitsToNat intDigits * 10 ^ scale + digitsToNat fracDigits : ℕ)
      let mantissa := if neg then -mantissa else mantissa
      let expVal : ℤ :=
        if expOk then (if expNeg then -(digitsToNat expDigits : ℤ) else digitsToNat expDigits)
        else 0
      let ex : ℤ := expVal - scale
      let q : ℚ :=
        if 0 ≤ ex then mkRat (mantissa * ((10 ^ ex.toNat : ℕ) : ℤ)) 1
        else mkRat mantissa (10 ^ (-ex).toNat)
      some (q, cs3)
  else none

/-- One escape sequence or literal character inside a JSON string; strict mode
rejects raw control characters. `\uXXXX` maps to the code unit's character. -/
def hexVal (c : Char) : Option ℕ :=
  if '0' ≤ c ∧ c ≤ '9' then some (c.toNat - 48)
  else if 'a' ≤ c ∧ c ≤ 'f' then some (c.toNat - 87)
  else if 'A' ≤ c ∧ c ≤ 'F' then some (c.toNat - 55)
  else none

/-- String-body scanner: consumes characters until the closing quote. -/
def parseStringBody : List Char → List Char → Option (String × List Char)
  | [], _ => none
  | '"' :: rest, acc => some (String.mk acc.reverse, rest)
  | '\\' :: '"' :: rest, acc => parseStringBody rest ('"' :: acc)
  | '\\' :: '\\' :: rest, acc => parseStringBody rest ('\\' :: acc)
  | '\\' :: '/' :: rest, acc => parseStringBody rest ('/' :: acc)
  | '\\' :: 'b' :: rest, acc => parseStringBody rest ('\x08' :: acc)
  | '\\' :: 'f' :: rest, acc => parseStringBody rest ('\x0c' :: acc)
  | '\\' :: 'n' :: rest, acc => parseStringBody rest ('\n' :: acc)
  | '\\' :: 'r' :: rest, acc => parseStringBody rest ('\r' :: acc)
  | '\\' :: 't' :: rest, acc => parseStringBody rest ('\t' :: acc)
  | '\\' :: 'u' :: h1 :: h2 :: h3 :: h4 :: rest, acc =>
    (match hexVal h1, hexVal h2, hexVal h3, hexVal h4 with
      | some a, some b, some c, some d =>
        parseStringBody rest (Char.ofNat (((a * 16 + b) * 16 + c) * 16 + d) :: acc)
      | _, _, _, _ => none)
  | '\\' :: _, _ => none
  | c :: rest, acc =>
    if c.toNat < 32 then none else parseStringBody rest (c :: acc)

/-- A JSON string, starting at its opening quote. -/
def parseJString : List Char → Option (String × List Char)
  | '"' :: rest => parseStringBody rest []
  | _ => none

/-- The three recursion modes of the JSON grammar: a value, the members of an
object after `{` (with the fields decoded so far), the elements of an array
after `[` (with the elements decoded so far). A single fuel-indexed function
keeps the recursion structural so concrete inputs evaluate by `rfl`/`decide`. -/
inductive JMode where
  | value : JMode
  | members (acc : List (String × Json)) : JMode
  | elems (acc : List Json) : JMode

/-- The recursive core of the JSON grammar (leading structural whitespace
allowed before a value). -/
def parseJ : ℕ → JMode → List Char → Option (Json × List Char)
  | 0, _, _ => none
  | Nat.succ f, JMode.value, cs =>
    (match skipWs cs with
    | '{' :: rest =>
      (match skipWs rest with
        | '}' :: rest2 => some (Json.obj [], rest2)
        | _ => parseJ f (JMode.members []) (skipWs rest))
    | '[' :: rest =>
      (match skipWs rest with
        | ']' :: rest2 => some (Json.arr [], rest2)
        | _ => parseJ f (JMode.elems []) (skipWs rest))
    | '"' :: rest =>
      (match parseStringBody rest [] with
        | some (s, rest2) => some (Json.str s, rest2)
        | none => none)
    | 't' :: 'r' :: 'u' :: 'e' :: rest => some (Json.bool true, rest)
    | 'f' :: 'a' :: 'l' :: 's' :: 'e' :: rest => some (Json.bool false, rest)
    | 'n' :: 'u' :: 'l' :: 'l' :: rest => some (Json.null, rest)
    | other =>
      (match parseNumber other with
        | some (q, rest) => some (Json.num q, rest)
        | none => none))
  | Nat.succ f, JMode.members acc, cs =>
    (match parseJString cs with
    | none => none
    | some (k, rest) =>
      match skipWs rest with
      | ':' :: rest2 =>
        (match parseJ f JMode.value rest2 with
          | none => none
          | some (v, rest3) =>
            match skipWs rest3 with
            | ',' :: rest4 => parseJ f (JMode.members (objInsert acc k v)) (skipWs rest4)
            | '}' :: rest4 => some (Json.obj (objInsert acc k v), rest4)
            | _ => none)
      | _ => none)
  | Nat.succ f, JMode.elems acc, cs =>
    (match parseJ f JMode.value cs with
    | none => none
    | some (v, rest) =>
      match skipWs rest with
      | ',' :: rest2 => parseJ f (JMode.elems (acc ++ [v])) rest2
      | ']' :: rest2 => some (Json.arr (acc ++ [v]), rest2)
      | _ => none)

/-- A JSON value with fuel. -/
def parseValue (f : ℕ) (cs : List Char) : Option (Json × List Char) :=
  parseJ f JMode.value cs

/-- Models `json.loads`: one complete JSON document, trailing whitespace only.
Every recursive step consumes input, so `length + 1` fuel never runs out. -/
def jsonDecode (cs : List Char) : Option Json :=
  match parseValue (cs.length + 1) cs with
  | some (v, rest) => if skipWs rest = [] then some v else none
  | none => none

/-- Embeds `AbductionAgent._parse_json` (core/agent.py, lines 531-550):
strip, remove a leading markdown fence line and a trailing closing fence,
strip, decode; a `JSONDecodeError` is caught and the empty mapping returned.
The Lean function is total, mirroring that the only exception path is caught.
Note the decoded value is returned unchanged even when it is not an object
(the `cast` in the source has no runtime effect). -/
def parse_json (response : List Char) : Json :=
  (jsonDecode (parse_json_text response)).getD (Json.obj [])

/-! ## Result model layer (core/models.py)
Fields the verified control flow never reads (timestamps, free-form context
and metadata mappings, reasoning traces) are omitted from the records; every
field the agent code reads or writes is present with its source default. -/

/-- Runtime failures of the embedded Python fragments. -/
inductive PyErr where
  | attributeError : PyErr
  | typeError : PyErr
  | validationError : PyErr
  | keyError : PyErr
  | oracleFailure : PyErr
  deriving Repr, DecidableEq

/-- `Domain` (core/models.py). -/
inductive Domain where
  | general | financial | legal | medical | technical | scientific
  deriving Repr, DecidableEq

/-- `SurpriseLevel` (core/models.py). -/
inductive SurpriseLevel where
  | expected | mild | surprising | high | anomalous
  deriving Repr, DecidableEq

/-- `Observation` (core/models.py). -/
structure Observation where
  fact : String
  expected_state : Option String := none
  surprise_level : SurpriseLevel := SurpriseLevel.surprising
  surprise_score : ℚ := 0.5
  domain : Domain := Domain.general
  deriving Repr, DecidableEq

/-- `Assumption` (core/models.py). -/
structure Assumption where
  statement : String
  confidence : ℚ := 0.5
  testable : Bool := true
  test_method : Option String := none
  deriving Repr, DecidableEq

/-- `TestablePrediction` (core/models.py). -/
structure TestablePrediction where
  prediction : String
  test_method : String
  expected_outcome_if_true : String
  expected_outcome_if_false : String
  estimated_test_cost : Option String := none
  deriving Repr, DecidableEq

/-- `Hypothesis` (core/models.py). -/
structure Hypothesis where
  id : String
  statement : String
  explanation : String
  assumptions : List Assumption := []
  prior_probability : ℚ := 0.5
  posterior_probability : Option ℚ := none
  testable_predictions : List TestablePrediction := []
  scores : HypothesisScores := {}
  analogous_cases : List String := []
  deriving Repr, DecidableEq

/-- `CriticPerspective` (core/models.py). -/
inductive CriticPerspective where
  | empiricist | logician | pragmatist | economist | skeptic
  deriving Repr, DecidableEq

/-- `CriticEvaluation` (core/models.py): note the model declares NO
`recommended_hypothesis` field — its fields are exactly perspective,
evaluation, concerns, strengths, recommended_tests. -/
structure CriticEvaluation where
  perspective : CriticPerspective
  evaluation : String
  concerns : List String := []
  strengths : List String := []
  recommended_tests : List String := []
  deriving Repr, DecidableEq

/-- `CouncilEvaluation` (core/models.py). -/
structure CouncilEvaluation where
  evaluations : List CriticEvaluation
  consensus : Option String := none
  dissent : Option String := none
  recommended_hypothesis : Option String := none
  deriving Repr, DecidableEq

/-- `AbductionResult` (core/models.py), restricted to the fields the verified
code reads or writes. -/
structure AbductionResult where
  observation : Observation
  hypotheses : List Hypothesis
  selected_hypothesis : Option String := none
  selection_rationale : Option String := none
  council_evaluation : Option CouncilEvaluation := none
  recommended_actions : List String := []
  confidence : ℚ := 0.5
  deriving Repr, DecidableEq

/-- `AbductionResult.best_hypothesis` (core/models.py, lines 286-294):
`if not self.selected_hypothesis: return None` (Python falsiness covers both
`None` and the empty string), then a first-match scan of `hypotheses` by id. -/
def AbductionResult.best_hypothesis (r : AbductionResult) : Option Hypothesis :=
  match r.selected_hypothesis with
  | none => none
  | some sel => if sel = "" then none else r.hypotheses.find? (fun h => h.id = sel)

/-! ## Python dynamic-access primitives for the phase executors -/

/-- `value.get(key, default)`: only a dict has `.get`; on any other value the
attribute lookup raises `AttributeError`. -/
def pyGet (v : Json) (k : String) (dflt : Json) : Except PyErr Json :=
  match v with
  | Json.obj kvs => Except.ok ((List.lookup k kvs).getD dflt)
  | _ => Except.error PyErr.attributeError

/-- `for x in value`: a list yields its elements, a string its one-character
substrings, a dict its keys; numbers, booleans and `None` raise `TypeError`. -/
def pyIter (v : Json) : Except PyErr (List Json) :=
  match v with
  | Json.arr xs => Except.ok xs
  | Json.str s => Except.ok (s.toList.map (fun c => Json.str (String.mk [c])))
  | Json.obj kvs => Except.ok (kvs.map (fun kv => Json.str kv.1))
  | _ => Except.error PyErr.typeError

/-- pydantic coercion into a `str` field (numbers are not coerced). -/
def asStr : Json → Except PyErr String
  | Json.str s => Except.ok s
  | _ => Except.error PyErr.validationError

/-- pydantic coercion into an `Optional[str]` field. -/
def asOptStr : Json → Except PyErr (Option String)
  | Json.null => Except.ok none
  | Json.str s => Except.ok (some s)
  | _ => Except.error PyErr.validationError

/-- pydantic coercion into a `float` field. -/
def asRat : Json → Except PyErr ℚ
  | Json.num q => Except.ok q
  | _ => Except.error PyErr.validationError

/-- pydantic validation of a `Field(ge=0.0, le=1.0)` float. -/
def check01 (q : ℚ) : Except PyErr ℚ :=
  if 0 ≤ q ∧ q ≤ 1 then Except.ok q else Except.error PyErr.validationError

/-! ## Phase executor: `AbductionAgent.single_shot` (core/agent.py, 223-295)
The oracle call is abstracted to the response text it produced; the prompt
string influences nothing verified here. -/

/-- The hypothesis-building loop of `single_shot`: one `Hypothesis` per entry
of `data.get("hypotheses", [])`, with the source defaults; `single_shot` sets
only five of the seven score dimensions (analogy and fertility keep 0.5). -/
def buildHypotheses : List Json → List Hypothesis → Except PyErr (List Hypothesis)
  | [], acc => Except.ok acc
  | h_data :: rest, acc => do
    let idJ ← pyGet h_data "id" (Json.str ("H" ++ toString (acc.length + 1)))
    let id ← asStr idJ
    let statement ← (← pyGet h_data "statement" (Json.str "")) |> asStr
    let explanation ← (← pyGet h_data "explanation" (Json.str "")) |> asStr
    let prior ← (← (← pyGet h_data "prior_probability" (Json.num 0.5)) |> asRat) |> check01
    let assumptionsL ← (← pyGet h_data "assumptions" (Json.arr [])) |> pyIter
    let assumptions ← assumptionsL.mapM (fun a => do
      let s ← asStr a
      pure ({ statement := s } : Assumption))
    let predsL ← (← pyGet h_data "testable_predictions" (Json.arr [])) |> pyIter
    let testable_predictions ← predsL.mapM (fun p => do
      let s ← asStr p
      pure ({ prediction := s, test_method := "To be determined",
              expected_outcome_if_true := "Hypothesis supported",
              expected_outcome_if_false := "Hypothesis refuted" } : TestablePrediction))
    let scores_data ← pyGet h_data "scores" (Json.obj [])
    let explanatory_scope ← (← (← pyGet scores_data "explanatory_scope" (Json.num 0.5)) |> asRat) |> check01
    let explanatory_power ← (← (← pyGet scores_data "explanatory_power" (Json.num 0.5)) |> asRat) |> check01
    let parsimony ← (← (← pyGet scores_data "parsimony" (Json.num 0.5)) |> asRat) |> check01
    let testability ← (← (← pyGet scores_data "testability" (Json.num 0.5)) |> asRat) |> check01
    let consilience ← (← (← pyGet scores_data "consilience" (Json.num 0.5)) |> asRat) |> check01
    buildHypotheses rest (acc ++ [{
      id, statement, explanation, assumptions,
      prior_probability := prior, testable_predictions,
      scores := { explanatory_scope, explanatory_power, parsimony, testability,
                  consilience } }])

/-- Embeds `AbductionAgent.single_shot` from the oracle response onward:
parse the response, rebuild `Observation`, the `Hypothesis` list and the
selection block, filling the source defaults for every missing key. -/
def single_shot (domain : Domain) (observation : String) (response : List Char) :
    Except PyErr AbductionResult := do
  let data := parse_json response
  let obs_data ← pyGet data "observation_analysis" (Json.obj [])
  let fact ← (← pyGet obs_data "fact" (Json.str observation)) |> asStr
  let surprise_score ← (← (← pyGet obs_data "surprise_score" (Json.num 0.5)) |> asRat) |> check01
  let expected_state ← (← pyGet obs_data "expected_state" Json.null) |> asOptStr
  let obs : Observation := { fact, expected_state, surprise_score, domain }
  let hypsL ← (← pyGet data "hypotheses" (Json.arr [])) |> pyIter
  let hypotheses ← buildHypotheses hypsL []
  let selection ← pyGet data "selection" (Json.obj [])
  let selected_hypothesis ← (← pyGet selection "best_hypothesis" Json.null) |> asOptStr
  let selection_rationale ← (← pyGet selection "rationale" Json.null) |> asOptStr
  let actionsL ← (← pyGet selection "recommended_actions" (Json.arr [])) |> pyIter
  let recommended_actions ← actionsL.mapM asStr
  let confidence ← (← (← pyGet selection "confidence" (Json.num 0.5)) |> asRat) |> check01
  Except.ok { observation := obs, hypotheses, selected_hypothesis,
              selection_rationale, recommended_actions, confidence }

/-! ## Council of Critics (core/agent.py, `_run_council` 450-485 and
`_run_critic` 487-512). A critic delegation's outcome — the produced
`CriticEvaluation`, or the exception `asyncio.gather(..., return_exceptions
:= true)` captured for it — is modelled as an `Except` value; the coordinator
is verified over the list of the five outcomes in roster order. -/

/-- `_run_critic`'s `perspective_map`; an unknown roster name would raise
`KeyError` on indexing. -/
def perspective_map : String → Option CriticPerspective
  | "empiricist" => some CriticPerspective.empiricist
  | "logician" => some CriticPerspective.logician
  | "pragmatist" => some CriticPerspective.pragmatist
  | "economist" => some CriticPerspective.economist
  | "skeptic" => some CriticPerspective.skeptic
  | _ => none

/-- Embeds `AbductionAgent._run_critic` from the oracle response onward:
parse, then build a `CriticEvaluation` with the source defaults
(`concerns` falls back to `logical_concerns`, strengths fixed empty).
Nothing in the response — in particular no `recommended_hypothesis` entry —
is mapped to a recommendation, because `CriticEvaluation` has no such field. -/
def run_critic (critic : String) (response : List Char) :
    Except PyErr CriticEvaluation := do
  let data := parse_json response
  let perspective ← match perspective_map critic with
    | some p => Except.ok p
    | none => Except.error PyErr.keyError
  let evaluation ← (← pyGet data "evaluation" (Json.str "")) |> asStr
  let concernsDefault ← pyGet data "logical_concerns" (Json.arr [])
  let concernsL ← (← pyGet data "concerns" concernsDefault) |> pyIter
  let concerns ← concernsL.mapM asStr
  let testsL ← (← pyGet data "recommended_tests" (Json.arr [])) |> pyIter
  let recommended_tests ← testsL.mapM asStr
  Except.ok { perspective, evaluation, concerns, strengths := [], recommended_tests }

/-- The filter `[e for e in evaluations if isinstance(e, CriticEvaluation)]`
applied to the gathered outcomes. -/
def gatherValid (outcomes : List (Except PyErr CriticEvaluation)) :
    List CriticEvaluation :=
  outcomes.filterMap (fun o => match o with
    | Except.ok e => some e
    | Except.error _ => none)

/-- `hasattr(e, "recommended_hypothesis") and e.recommended_hypothesis`:
the `CriticEvaluation` model declares no `recommended_hypothesis` field and
`_run_critic` never sets one, so the `hasattr` test is `False` on every
critic evaluation and no critic ever contributes a vote. -/
def criticRecommendation (e : CriticEvaluation) : Option String :=
  match e with
  | _ => none

/-- `recommendations[r] = recommendations.get(r, 0) + 1` on an
insertion-ordered dict modelled as an association list. -/
def bumpTally (recs : List (String × ℕ)) (k : String) : List (String × ℕ) :=
  match recs with
  | [] => [(k, 1)]
  | (k0, n) :: rest => if k0 = k then (k0, n + 1) :: rest else (k0, n) :: bumpTally rest k

/-- The vote-counting loop of `_run_council` over the surviving evaluations
(the empty-string guard mirrors the truthiness test on the recommendation). -/
def tallyRecs (evals : List CriticEvaluation) : List (String × ℕ) :=
  evals.foldl (fun recs e =>
    match criticRecommendation e with
    | some r => if r = "" then recs else bumpTally recs r
    | none => recs) []

/-- `max(recommendations.keys(), key=lambda k: recommendations[k])`: Python's
`max` keeps the first maximum in iteration (= insertion) order. -/
def maxKeyByCount : List (String × ℕ) → Option String
  | [] => none
  | (k, n) :: rest =>
    some ((rest.foldl (fun (best : String × ℕ) kv =>
      if kv.2 > best.2 then kv else best) (k, n)).1)

/-- Embeds `AbductionAgent._run_council` after the `asyncio.gather` fan-in:
filter the outcomes to the successful evaluations, tally recommendations,
and pick the plurality winner when the tally is nonempty. The Lean function
is total: per-critic failures are data here, never propagated. -/
def run_council (outcomes : List (Except PyErr CriticEvaluation)) :
    CouncilEvaluation :=
  let valid_evals := gatherValid outcomes
  let recommended : Option String :=
    if valid_evals.isEmpty then none
    else
      let recommendations := tallyRecs valid_evals
      if recommendations.isEmpty then none else maxKeyByCount recommendations
  { evaluations := valid_evals, recommended_hypothesis := recommended }

/-! ## MCP request layer: `peircean_generate_hypotheses`
(mcp/server.py 581-660, mcp/errors.py). The phase-2 tool never delegates to
an oracle — it validates, parses the anomaly, and returns either a
structured error response or a prompt for the host to execute; the prompt
template text is pure formatting (out of scope per the spec) and is
represented by the data that determines it. -/

/-- `ErrorCode` (mcp/errors.py). -/
inductive ErrorCode where
  | validation_error | invalid_json | missing_field | invalid_value
  | processing_error | timeout | configuration_error
  deriving Repr, DecidableEq

/-- What `peircean_generate_hypotheses` returns: a `format_error_response`
payload (message, code, hint), or the phase-2 prompt built from the parsed
anomaly and the hypothesis count. -/
inductive ToolResponse where
  | errorResp (error : String) (code : ErrorCode) (hint : Option String) : ToolResponse
  | promptResp (anomaly : Json) (num_hypotheses : ℤ) : ToolResponse
  deriving Repr

/-- Python `"anomaly" in data` (dict: key membership; list: element equality;
string: substring; other values raise `TypeError`). -/
def containsSub (hay needle : List Char) : Bool :=
  hay.tails.any (fun t => needle.isPrefixOf t)

def jsonContainsAnomalyKey : Json → Except PyErr Bool
  | Json.obj kvs => Except.ok (kvs.any (fun kv => kv.1 = "anomaly"))
  | Json.arr xs => Except.ok (xs.any (fun x => match x with
      | Json.str s => s = "anomaly"
      | _ => false))
  | Json.str s => Except.ok (containsSub s.toList "anomaly".toList)
  | _ => Except.error PyErr.typeError

/-- Python `data["anomaly"]` (only a dict is indexable by a string key). -/
def jsonIndexAnomaly : Json → Except PyErr Json
  | Json.obj kvs =>
    (match List.lookup "anomaly" kvs with
      | some v => Except.ok v
      | none => Except.error PyErr.keyError)
  | _ => Except.error PyErr.typeError

/-- Embeds `_parse_anomaly_json` (mcp/server.py 343-359): strict decode, then
unwrap an `anomaly` entry when present; a decode failure becomes the
`format_json_parse_error` response (code `invalid_json`). -/
def parse_anomaly_json (anomaly_json : List Char) :
    Except PyErr (Option Json × Option ToolResponse) :=
  match jsonDecode anomaly_json with
  | some data => do
    let has ← jsonContainsAnomalyKey data
    if has then do
      let v ← jsonIndexAnomaly data
      pure (some v, none)
    else
      pure (some data, none)
  | none =>
    Except.ok (none, some (ToolResponse.errorResp
      "Invalid JSON in anomaly_json parameter" ErrorCode.invalid_json
      (some "Pass the raw JSON output from peircean_observe_anomaly (Phase 1)")))

/-- Embeds `peircean_generate_hypotheses` (mcp/server.py 581-660): the bounds
check on `num_hypotheses` runs first and returns the `invalid_value` error
response before the anomaly payload is even parsed; only afterwards is the
anomaly JSON parsed and the phase-2 prompt assembled. -/
def peircean_generate_hypotheses (anomaly_json : List Char) (num_hypotheses : ℤ) :
    Except PyErr ToolResponse :=
  if num_hypotheses < 1 ∨ 20 < num_hypotheses then
    Except.ok (ToolResponse.errorResp
      ("num_hypotheses must be between 1 and 20, got " ++ toString num_hypotheses)
      ErrorCode.invalid_value
      (some "Use a value between 1 and 20 for num_hypotheses"))
  else do
    let parsed ← parse_anomaly_json anomaly_json
    match parsed.2 with
    | some err => pure err
    | none =>
      match parsed.1 with
      | some anomaly => pure (ToolResponse.promptResp anomaly num_hypotheses)
      | none => pure (ToolResponse.promptResp Json.null num_hypotheses)

/-- The filter predicate of the gather step: did this delegation raise? -/
def isErrOutcome (o : Except PyErr CriticEvaluation) : Bool :=
  match o with
  | Except.error _ => true
  | Except.ok _ => false

/-- A five-critic outcome list in which exactly the second delegation raised. -/
def councilOneFailure : List (Except PyErr CriticEvaluation) :=
  [Except.ok { perspective := CriticPerspective.empiricist, evaluation := "a" },
   Except.error PyErr.oracleFailure,
   Except.ok { perspective := CriticPerspective.pragmatist, evaluation := "c" },
   Except.ok { perspective := CriticPerspective.economist, evaluation := "d" },
   Except.ok { perspective := CriticPerspective.skeptic, evaluation := "e" }]

/-- A critic oracle response whose JSON names a recommended hypothesis. -/
def criticResponse : List Char :=
  "\x7b\"evaluation\": \"ok\", \"recommended_tests\": [], \"recommended_hypothesis\": \"H1\"\x7d".toList

/-- The five-critic roster of `_run_council`, all answering `criticResponse`. -/
def councilAllNamingH1 : List (Except PyErr CriticEvaluation) :=
  [run_critic "empiricist" criticResponse,
   run_critic "logician" criticResponse,
   run_critic "pragmatist" criticResponse,
   run_critic "economist" criticResponse,
   run_critic "skeptic" criticResponse]

/-! ## Helper lemmas on the text model -/

theorem dropWhile_append_of_ne_nil {α : Type} (p : α → Bool) (l1 l2 : List α)
    (h : l1.dropWhile p ≠ []) :
    (l1 ++ l2).dropWhile p = l1.dropWhile p ++ l2 := by
  induction l1 with
  | nil => simp at h
  | cons a t ih =>
    by_cases hp : p a
    · rw [List.dropWhile_cons_of_pos hp] at h
      rw [List.cons_append, List.dropWhile_cons_of_pos hp,
        List.dropWhile_cons_of_pos hp]
      exact ih h
    · rw [List.cons_append, List.dropWhile_cons_of_neg hp,
        List.dropWhile_cons_of_neg hp, List.cons_append]

theorem lstrip_cons_of_neg {c : Char} (h : pyIsSpace c = false) (cs : List Char) :
    lstrip (c :: cs) = c :: cs := by
  simp [lstrip, List.dropWhile_cons, h]

theorem rstrip_append_of_pos {c : Char} (h : pyIsSpace c = true) (cs : List Char) :
    rstrip (cs ++ [c]) = rstrip cs := by
  simp [rstrip, List.reverse_append, List.dropWhile_cons, h]

theorem rstrip_append_left (xs ys : List Char) (h : rstrip ys ≠ []) :
    rstrip (xs ++ ys) = xs ++ rstrip ys := by
  have hne : ys.reverse.dropWhile pyIsSpace ≠ [] := by
    intro hc; apply h; simp [rstrip, hc]
  simp only [rstrip, List.reverse_append]
  rw [dropWhile_append_of_ne_nil _ _ _ hne]
  simp [rstrip]

theorem rstrip_idem (cs : List Char) : rstrip (rstrip cs) = rstrip cs := by
  simp [rstrip, List.reverse_reverse, List.dropWhile_idempotent]

theorem pyStrip_rstrip (cs : List Char) : pyStrip (rstrip cs) = pyStrip cs := by
  simp [pyStrip, rstrip_idem]

theorem pyStrip_append_nl (cs : List Char) : pyStrip (cs ++ ['\n']) = pyStrip cs := by
  simp [pyStrip, rstrip_append_of_pos (by decide : pyIsSpace '\n' = true)]

theorem afterFirstNl_append (pre rest : List Char) (h : '\n' ∉ pre) :
    afterFirstNl (pre ++ '\n' :: rest) = some rest := by
  induction pre with
  | nil => simp [afterFirstNl]
  | cons a t ih =>
    have ha : a ≠ '\n' := by intro hc; exact h (by simp [hc])
    simp only [List.cons_append, afterFirstNl, if_neg ha]
    exact ih (fun hc => h (by simp [hc]))

theorem startsFence_fence_append (xs : List Char) : startsFence (fence ++ xs) = true := by
  simp [fence, startsFence]

theorem stripClosingFence_append_fence (xs : List Char) :
    stripClosingFence (xs ++ fence) = xs := by
  simp [stripClosingFence, fence, List.reverse_append]

theorem rstrip_fence : rstrip fence = fence := by decide

theorem fence_ne_nil : fence ≠ [] := by decide

/-- The text handed to `json.loads` when the (stripped) response carries no
leading fence is just the stripped response. -/
theorem parse_json_text_no_fence (s : List Char)
    (h : startsFence (pyStrip s) = false) : parse_json_text s = pyStrip s := by
  simp [parse_json_text, h]

/-- Fence-wrapping with a closing fence is stripped back to the stripped
payload. -/
theorem parse_json_text_wrap_closed (s lang : List Char) (hlang : '\n' ∉ lang) :
    parse_json_text (fence ++ lang ++ ['\n'] ++ s ++ ['\n'] ++ fence) = pyStrip s := by
  have hW : fence ++ lang ++ ['\n'] ++ s ++ ['\n'] ++ fence =
      (fence ++ lang ++ ['\n'] ++ s ++ ['\n']) ++ fence := by simp
  have h1 : rstrip (fence ++ lang ++ ['\n'] ++ s ++ ['\n'] ++ fence) =
      fence ++ lang ++ ['\n'] ++ s ++ ['\n'] ++ fence := by
    rw [hW, rstrip_append_left _ _ (by rw [rstrip_fence]; exact fence_ne_nil), rstrip_fence]
  have h2 : pyStrip (fence ++ lang ++ ['\n'] ++ s ++ ['\n'] ++ fence) =
      fence ++ lang ++ ['\n'] ++ s ++ ['\n'] ++ fence := by
    rw [pyStrip, h1]
    have : fence ++ lang ++ ['\n'] ++ s ++ ['\n'] ++ fence =
        '`' :: (['`', '`'] ++ lang ++ ['\n'] ++ s ++ ['\n'] ++ fence) := by simp [fence]
    rw [this, lstrip_cons_of_neg (by decide)]
  have h3 : afterFirstNl (fence ++ lang ++ ['\n'] ++ s ++ ['\n'] ++ fence) =
      some (s ++ ['\n'] ++ fence) := by
    have : fence ++ lang ++ ['\n'] ++ s ++ ['\n'] ++ fence =
        (fence ++ lang) ++ '\n' :: (s ++ ['\n'] ++ fence) := by simp
    rw [this]
    exact afterFirstNl_append _ _ (by
      intro hc
      rcases List.mem_append.mp hc with h | h
      · revert h; decide
      · exact hlang h)
  have h4 : startsFence (fence ++ lang ++ ['\n'] ++ s ++ ['\n'] ++ fence) = true := by
    have : fence ++ lang ++ ['\n'] ++ s ++ ['\n'] ++ fence =
        fence ++ (lang ++ ['\n'] ++ s ++ ['\n'] ++ fence) := by simp
    rw [this, startsFence_fence_append]
  simp only [parse_json_text, h2, dropFenceLine, h3, Option.getD_some]
  rw [if_pos h4]
  have h5 : s ++ ['\n'] ++ fence = (s ++ ['\n']) ++ fence := by simp
  rw [h5, stripClosingFence_append_fence, pyStrip_append_nl]

/-- Fence-wrapping without a closing fence is also stripped back to the
stripped payload (for payloads that do not themselves end in a fence). -/
theorem parse_json_text_wrap_open (s lang : List Char) (hlang : '\n' ∉ lang)
    (hne : rstrip s ≠ []) (hclose : stripClosingFence (rstrip s) = rstrip s) :
    parse_json_text (fence ++ lang ++ ['\n'] ++ s) = pyStrip s := by
  have h1 : rstrip (fence ++ lang ++ ['\n'] ++ s) =
      fence ++ lang ++ ['\n'] ++ rstrip s := by
    have : fence ++ lang ++ ['\n'] ++ s = (fence ++ lang ++ ['\n']) ++ s := by simp
    rw [this, rstrip_append_left _ _ hne]
  have h2 : pyStrip (fence ++ lang ++ ['\n'] ++ s) =
      fence ++ lang ++ ['\n'] ++ rstrip s := by
    rw [pyStrip, h1]
    have : fence ++ lang ++ ['\n'] ++ rstrip s =
        '`' :: (['`', '`'] ++ lang ++ ['\n'] ++ rstrip s) := by simp [fence]
    rw [this, lstrip_cons_of_neg (by decide)]
  have h3 : afterFirstNl (fence ++ lang ++ ['\n'] ++ rstrip s) = some (rstrip s) := by
    have : fence ++ lang ++ ['\n'] ++ rstrip s = (fence ++ lang) ++ '\n' :: rstrip s := by
      simp
    rw [this]
    exact afterFirstNl_append _ _ (by
      intro hc
      rcases List.mem_append.mp hc with h | h
      · revert h; decide
      · exact hlang h)
  have h4 : startsFence (fence ++ lang ++ ['\n'] ++ rstrip s) = true := by
    have : fence ++ lang ++ ['\n'] ++ rstrip s =
        fence ++ (lang ++ ['\n'] ++ rstrip s) := by simp
    rw [this, startsFence_fence_append]
  simp only [parse_json_text, h2, dropFenceLine, h3, Option.getD_some]
  rw [if_pos h4, hclose, pyStrip_rstrip]

/-! ## Theorems: model layer (claims C1, C10) -/

/-- C1 as stated quantifies over *every* weight mapping, including the empty
one; the code replaces a falsy (empty) dict by the default weights, so
all-ones scores with the empty mapping give `1.0`, not the literal raw
weighted sum `0.0`. -/
theorem composite_empty_weights_counterexample :
    scoresAllOne.InBounds ∧
    scoresAllOne.composite (some []) = 1 ∧ (1 : ℚ) ≠ 0 := by
  refine ⟨by decide, ?_, by norm_num⟩
  simp [HypothesisScores.composite, scoresAllOne, default_weights, wget, List.lookup]
  norm_num

/-- C1 (amended to nonempty weight mappings): for every `HypothesisScores`
with all seven dimensions in `[0,1]` and every *nonempty* weight mapping,
`composite` is the literal raw weighted sum (absent dimensions weighted `0`,
no re-normalisation); all-ones scores under weights
`{explanatory_scope: 1.0, explanatory_power: 1.0}` give `2.0`; and with no
weight mapping the canonical default weighting is used. -/
theorem composite_raw_weighted_sum (s : HypothesisScores) (ws : Weights)
    (hb : s.InBounds) (hne : ws ≠ []) :
    s.composite (some ws) =
      wget ws "explanatory_scope" * s.explanatory_scope +
      wget ws "explanatory_power" * s.explanatory_power +
      wget ws "parsimony" * s.parsimony +
      wget ws "testability" * s.testability +
      wget ws "consilience" * s.consilience +
      wget ws "analogy" * s.analogy +
      wget ws "fertility" * s.fertility ∧
    scoresAllOne.composite (some [("explanatory_scope", 1), ("explanatory_power", 1)]) = 2 ∧
    s.composite none =
      0.15 * s.explanatory_scope + 0.25 * s.explanatory_power + 0.20 * s.parsimony +
      0.15 * s.testability + 0.10 * s.consilience + 0.05 * s.analogy +
      0.10 * s.fertility := by
  clear hb
  refine ⟨?_, ?_, ?_⟩
  · simp [HypothesisScores.composite, List.isEmpty_iff, hne]
  · simp [HypothesisScores.composite, scoresAllOne, wget, List.lookup]
    norm_num
  · simp [HypothesisScores.composite, default_weights, wget, List.lookup]

theorem composite_raw_weighted_sum_witness :
    scoresAllOne.InBounds ∧ ([(("explanatory_power" : String), (1 : ℚ))] ≠ []) ∧
    scoresAllOne.composite (some [("explanatory_power", 1)]) =
      wget [("explanatory_power", 1)] "explanatory_scope" * 1 +
      wget [("explanatory_power", 1)] "explanatory_power" * 1 +
      wget [("explanatory_power", 1)] "parsimony" * 1 +
      wget [("explanatory_power", 1)] "testability" * 1 +
      wget [("explanatory_power", 1)] "consilience" * 1 +
      wget [("explanatory_power", 1)] "analogy" * 1 +
      wget [("explanatory_power", 1)] "fertility" * 1 := by
  refine ⟨by decide, by simp, ?_⟩
  have h := composite_raw_weighted_sum scoresAllOne [("explanatory_power", 1)]
    (by decide) (by simp)
  exact h.1

/-- C10: the empty weight mapping is falsy in `weights or default_weights`,
so `composite({})` coincides with `composite()` (default weighting), not with
a raw weighted sum of `0.0`. -/
theorem composite_empty_eq_default (s : HypothesisScores) :
    s.composite (some []) = s.composite none ∧
    scoresAllOne.composite (some []) ≠ 0 := by
  constructor
  · simp [HypothesisScores.composite]
  · simp [HypothesisScores.composite, scoresAllOne, default_weights, wget, List.lookup]
    norm_num

/-! ## Theorems: oracle response parser (claims C4, C5) -/

/-- C4: a JSON-object payload wrapped in a triple-backtick fenced block (with
or without a language tag on the fence line; with or without a closing fence)
parses to the same value as the unwrapped payload. The three payload
hypotheses hold for any JSON-object text: its stripped form starts with `{`
and ends with `}`, hence is nonempty, starts with no fence and ends with no
fence. -/
theorem parse_json_fence_invariance (s lang : List Char)
    (hlang : '\n' ∉ lang)
    (hstart : startsFence (pyStrip s) = false)
    (hne : rstrip s ≠ [])
    (hclose : stripClosingFence (rstrip s) = rstrip s) :
    parse_json (fence ++ lang ++ ['\n'] ++ s ++ ['\n'] ++ fence) = parse_json s ∧
    parse_json (fence ++ lang ++ ['\n'] ++ s) = parse_json s := by
  constructor
  · unfold parse_json
    rw [parse_json_text_wrap_closed s lang hlang, parse_json_text_no_fence s hstart]
  · unfold parse_json
    rw [parse_json_text_wrap_open s lang hlang hne hclose, parse_json_text_no_fence s hstart]

theorem parse_json_fence_invariance_witness :
    ('\n' ∉ "json".toList) ∧
    startsFence (pyStrip ("\x7b\"k\":1\x7d".toList)) = false ∧
    rstrip ("\x7b\"k\":1\x7d".toList) ≠ [] ∧
    stripClosingFence (rstrip ("\x7b\"k\":1\x7d".toList)) = rstrip ("\x7b\"k\":1\x7d".toList) ∧
    parse_json (fence ++ "json".toList ++ ['\n'] ++ "\x7b\"k\":1\x7d".toList ++ ['\n'] ++ fence) =
      parse_json ("\x7b\"k\":1\x7d".toList) ∧
    parse_json ("\x7b\"k\":1\x7d".toList) = Json.obj [("k", Json.num 1)] := by
  refine ⟨by decide, by decide, by decide, by decide, ?_, by rfl⟩
  exact (parse_json_fence_invariance ("\x7b\"k\":1\x7d".toList) ("json".toList)
    (by decide) (by decide) (by decide) (by decide)).1

/-- C5: when the fence-stripped content fails strict JSON decoding, the
parser returns the empty mapping; the Lean embedding is a total function,
mirroring that the `JSONDecodeError` handler is the only exception path and
is always caught. -/
theorem parse_json_invalid_gives_empty (response : List Char)
    (h : jsonDecode (parse_json_text response) = none) :
    parse_json response = Json.obj [] := by
  simp [parse_json, h]

theorem parse_json_invalid_gives_empty_witness :
    jsonDecode (parse_json_text ("not json".toList)) = none ∧
    parse_json ("not json".toList) = Json.obj [] :=
  ⟨by rfl, parse_json_invalid_gives_empty ("not json".toList) (by rfl)⟩

/-! ## Theorems: single-shot phase executor (claims C6, C7, C9) -/

/-- C6 as stated is false on the code: over the top-level JSON array `[1,2]`
the decode succeeds, but the single-shot executor raises `AttributeError` at
its first `data.get(...)` instead of completing with field defaults. -/
theorem single_shot_non_object_counterexample :
    (∃ xs, jsonDecode (parse_json_text ("[1,2]".toList)) = some (Json.arr xs)) ∧
    single_shot Domain.general "obs" ("[1,2]".toList) =
      Except.error PyErr.attributeError :=
  ⟨⟨_, rfl⟩, rfl⟩

/-- C6 (amended): on a valid-JSON response with a non-object top level the
decode does succeed and `_parse_json` returns that non-object value
unchanged, but every single-shot run over such a response then raises
`AttributeError` at its first field lookup — it does not complete with
field-level defaults. -/
theorem single_shot_non_object (response : List Char) (v : Json)
    (hdec : jsonDecode (parse_json_text response) = some v)
    (hnotobj : ∀ kvs, v ≠ Json.obj kvs) :
    parse_json response = v ∧
    ∀ (d : Domain) (obs : String),
      single_shot d obs response = Except.error PyErr.attributeError := by
  have hp : parse_json response = v := by simp [parse_json, hdec]
  refine ⟨hp, fun d obs => ?_⟩
  cases v with
  | obj kvs => exact absurd rfl (hnotobj kvs)
  | null => simp [single_shot, hp, pyGet, Bind.bind, Except.bind]
  | bool b => simp [single_shot, hp, pyGet, Bind.bind, Except.bind]
  | num q => simp [single_shot, hp, pyGet, Bind.bind, Except.bind]
  | str s => simp [single_shot, hp, pyGet, Bind.bind, Except.bind]
  | arr xs => simp [single_shot, hp, pyGet, Bind.bind, Except.bind]

theorem single_shot_non_object_witness :
    jsonDecode (parse_json_text ("\"abc\"".toList)) = some (Json.str "abc") ∧
    (∀ kvs, Json.str "abc" ≠ Json.obj kvs) ∧
    parse_json ("\"abc\"".toList) = Json.str "abc" ∧
    single_shot Domain.general "x" ("\"abc\"".toList) =
      Except.error PyErr.attributeError := by
  have h := single_shot_non_object ("\"abc\"".toList) (Json.str "abc") (by rfl)
    (fun kvs hk => Json.noConfusion hk)
  exact ⟨by rfl, fun kvs hk => Json.noConfusion hk, h.1, h.2 Domain.general "x"⟩

/-- C7: a single-shot run whose oracle returns `{}` completes without error
with an empty hypothesis list, no selected hypothesis and confidence `0.5`,
for every observation text and domain. -/
theorem single_shot_empty_object (domain : Domain) (obs_text : String) :
    single_shot domain obs_text ("\x7b\x7d".toList) =
      Except.ok { observation := { fact := obs_text, domain }, hypotheses := [],
                  selected_hypothesis := none, confidence := 0.5 } ∧
    ∀ r, single_shot domain obs_text ("\x7b\x7d".toList) = Except.ok r →
      r.hypotheses = [] ∧ r.selected_hypothesis = none ∧ r.confidence = 0.5 := by
  have hmain : single_shot domain obs_text ("\x7b\x7d".toList) =
      Except.ok { observation := { fact := obs_text, domain }, hypotheses := [],
                  selected_hypothesis := none, confidence := 0.5 } := by
    with_unfolding_all rfl
  refine ⟨hmain, fun r hr => ?_⟩
  rw [hmain] at hr
  injection hr with h
  subst h
  exact ⟨rfl, rfl, rfl⟩

/-- C9 as stated is false on the code: the oracle's selection is copied into
`selected_hypothesis` without being checked against the hypothesis list, so a
response naming the unknown id `H99` over an empty hypothesis list produces a
result whose `best_hypothesis` lookup is empty. -/
theorem selected_hypothesis_unvalidated_counterexample :
    ∃ r, single_shot Domain.general "obs"
        ("\x7b\"selection\": \x7b\"best_hypothesis\": \"H99\"\x7d\x7d".toList) = Except.ok r ∧
      r.selected_hypothesis = some "H99" ∧ r.hypotheses = [] ∧
      r.best_hypothesis = none :=
  ⟨{ observation := { fact := "obs" }, hypotheses := [],
     selected_hypothesis := some "H99" }, by with_unfolding_all rfl, rfl, rfl, rfl⟩

/-- C9 (amended): the orchestrator never validates `selected_hypothesis`
against the hypothesis ids; the helper lookup is non-empty exactly when the
(nonempty) selected id does match some element, and an oracle-named unknown
id yields an empty lookup. -/
theorem best_hypothesis_finds_selected (r : AbductionResult) (sel : String)
    (hsel : r.selected_hypothesis = some sel) (hne : sel ≠ "")
    (hmem : ∃ h ∈ r.hypotheses, h.id = sel) :
    ∃ h, r.best_hypothesis = some h ∧ h.id = sel := by
  obtain ⟨h0, hm, hid⟩ := hmem
  have hfind : (r.hypotheses.find? (fun h => h.id = sel)).isSome := by
    rw [List.find?_isSome]
    exact ⟨h0, hm, by simp [hid]⟩
  obtain ⟨h1, hh1⟩ := Option.isSome_iff_exists.mp hfind
  refine ⟨h1, ?_, ?_⟩
  · simp [AbductionResult.best_hypothesis, hsel, hne, hh1]
  · have := List.find?_some hh1
    simpa using this

theorem best_hypothesis_finds_selected_witness :
    ∃ h, ({ observation := { fact := "o" },
            hypotheses := [{ id := "H1", statement := "s", explanation := "e" }],
            selected_hypothesis := some "H1" } : AbductionResult).best_hypothesis =
        some h ∧ h.id = "H1" :=
  best_hypothesis_finds_selected _ "H1" rfl (by decide)
    ⟨{ id := "H1", statement := "s", explanation := "e" }, by simp, rfl⟩

/-! ## Theorems: Council of Critics (claims C2, C3) -/

theorem gatherValid_length_add (outcomes : List (Except PyErr CriticEvaluation)) :
    (gatherValid outcomes).length + outcomes.countP isErrOutcome = outcomes.length := by
  induction outcomes with
  | nil => simp [gatherValid]
  | cons o rest ih =>
    cases o with
    | ok e =>
      simp [gatherValid, List.filterMap_cons, List.countP_cons, isErrOutcome] at ih ⊢
      omega
    | error err =>
      simp [gatherValid, List.filterMap_cons, List.countP_cons, isErrOutcome] at ih ⊢
      omega

theorem gatherValid_all_err (outs : List (Except PyErr CriticEvaluation))
    (h : ∀ o ∈ outs, ∃ e, o = Except.error e) : gatherValid outs = [] := by
  induction outs with
  | nil => rfl
  | cons o rest ih =>
    obtain ⟨e, he⟩ := h o (by simp)
    subst he
    simp only [gatherValid, List.filterMap_cons]
    exact ih (fun o ho => h o (by simp [ho]))

/-- C2: the council coordinator never propagates a critic failure — its
result always holds exactly the successful evaluations (in roster order);
with five outcomes of which exactly one raised, four evaluations survive;
and when every critic fails the council holds zero evaluations and no
recommendation. The coordinator itself is a total function of the outcomes:
it has no failure channel. -/
theorem run_council_partial_failure (outcomes : List (Except PyErr CriticEvaluation))
    (h5 : outcomes.length = 5)
    (h1 : outcomes.countP isErrOutcome = 1) :
    (run_council outcomes).evaluations = gatherValid outcomes ∧
    (run_council outcomes).evaluations.length = 4 ∧
    (∀ outs : List (Except PyErr CriticEvaluation),
      (∀ o ∈ outs, ∃ e, o = Except.error e) →
      run_council outs = { evaluations := [], recommended_hypothesis := none }) := by
  refine ⟨rfl, ?_, ?_⟩
  · have := gatherValid_length_add outcomes
    rw [h5, h1] at this
    have hlen : (gatherValid outcomes).length = 4 := by omega
    simpa [run_council] using hlen
  · intro outs hall
    have hnil := gatherValid_all_err outs hall
    simp [run_council, hnil]

theorem run_council_partial_failure_witness :
    councilOneFailure.length = 5 ∧ councilOneFailure.countP isErrOutcome = 1 ∧
    (run_council councilOneFailure).evaluations.length = 4 :=
  ⟨rfl, rfl, (run_council_partial_failure councilOneFailure rfl rfl).2.1⟩

/-- C3 as stated is false on the code: five critics all succeed on a response
whose JSON names `H1` as its recommended hypothesis, yet the council's
recommendation is `None` — `_run_critic` discards the `recommended_hypothesis`
entry (the `CriticEvaluation` model has no such field), so no surviving
critic can ever cast a vote and the claimed non-null plurality winner never
materialises. -/
theorem council_recommendation_counterexample :
    run_critic "empiricist" criticResponse = Except.ok
      { perspective := CriticPerspective.empiricist, evaluation := "ok" } ∧
    (run_council councilAllNamingH1).evaluations.length = 5 ∧
    (run_council councilAllNamingH1).recommended_hypothesis = none := by
  refine ⟨by with_unfolding_all rfl, by with_unfolding_all rfl, by with_unfolding_all rfl⟩

theorem tallyRecs_eq_nil (evals : List CriticEvaluation) : tallyRecs evals = [] := by
  have hgen : ∀ (l : List CriticEvaluation) (acc : List (String × ℕ)),
      l.foldl (fun recs e => match criticRecommendation e with
        | some r => if r = "" then recs else bumpTally recs r
        | none => recs) acc = acc := by
    intro l
    induction l with
    | nil => intro acc; rfl
    | cons e rest ih =>
      intro acc
      simp only [List.foldl_cons, criticRecommendation]
      exact ih acc
  exact hgen evals []

/-- C3 (amended): the vote over critics' `recommended_hypothesis` fields is
always empty — `CriticEvaluation` declares no such field and `_run_critic`
never maps the oracle text back into one — so the council's
`recommended_hypothesis` is `None` on every run, regardless of what the
critics' responses contained. -/
theorem council_recommendation_always_none
    (outcomes : List (Except PyErr CriticEvaluation)) :
    (run_council outcomes).recommended_hypothesis = none := by
  by_cases h : (gatherValid outcomes).isEmpty <;>
    simp [run_council, h, tallyRecs_eq_nil]

/-! ## Theorems: MCP request layer (claim C8) -/

/-- C8: a hypothesis count outside `[1,20]` is rejected by the request layer
with the `invalid_value` error code before the anomaly payload is even
examined — the response is the same for every `anomaly_json`, so no parsing
and no prompt construction happens (and the phase-2 tool contains no oracle
delegation at all: its success path only returns a prompt for the caller).
The code is distinct from the `invalid_json` parse-error code, which the
same tool emits for an undecodable payload with an in-range count. -/
theorem generate_hypotheses_rejects_out_of_range (anomaly_json : List Char) (n : ℤ)
    (hout : n < 1 ∨ 20 < n) :
    peircean_generate_hypotheses anomaly_json n =
      Except.ok (ToolResponse.errorResp
        ("num_hypotheses must be between 1 and 20, got " ++ toString n)
        ErrorCode.invalid_value
        (some "Use a value between 1 and 20 for num_hypotheses")) ∧
    (∀ aj2 : List Char,
      peircean_generate_hypotheses anomaly_json n =
        peircean_generate_hypotheses aj2 n) ∧
    ErrorCode.invalid_value ≠ ErrorCode.invalid_json ∧
    peircean_generate_hypotheses ("not json".toList) 5 =
      Except.ok (ToolResponse.errorResp "Invalid JSON in anomaly_json parameter"
        ErrorCode.invalid_json
        (some "Pass the raw JSON output from peircean_observe_anomaly (Phase 1)")) := by
  have hmain : ∀ aj : List Char, peircean_generate_hypotheses aj n =
      Except.ok (ToolResponse.errorResp
        ("num_hypotheses must be between 1 and 20, got " ++ toString n)
        ErrorCode.invalid_value
        (some "Use a value between 1 and 20 for num_hypotheses")) := by
    intro aj
    simp only [peircean_generate_hypotheses]
    rw [if_pos hout]
  refine ⟨hmain anomaly_json, fun aj2 => (hmain anomaly_json).trans (hmain aj2).symm,
    by decide, by with_unfolding_all rfl⟩

theorem generate_hypotheses_rejects_out_of_range_witness :
    ((21 : ℤ) < 1 ∨ (20 : ℤ) < 21) ∧
    peircean_generate_hypotheses ("\x7b\x7d".toList) 21 =
      Except.ok (ToolResponse.errorResp
        ("num_hypotheses must be between 1 and 20, got " ++ toString (21 : ℤ))
        ErrorCode.invalid_value
        (some "Use a value between 1 and 20 for num_hypotheses")) :=
  ⟨by decide, (generate_hypotheses_rejects_out_of_range ("\x7b\x7d".toList) 21 (by decide)).1⟩
